import Mathlib

/-!
# Verification of the Mars rovers dashboard availability calculator

Shallow embedding of `src/public/client.js` (the `getRoverInfo` rover
availability computation and its date helpers `dateToStringConverter`,
`apodStringToDate`, `getDateWithTimeString`), together with a model of the
JavaScript `Date` runtime semantics the code relies on.

Modelling conventions:
* A JavaScript `Date` holding a valid instant is a `JSDate`: the local civil
  calendar fields (year, month 1..12, day, hour).  The local timezone offset is
  fixed during a computation (no DST), so instant comparison coincides with
  comparison of `jsTime` (hours since the civil epoch in local reckoning).
  An *Invalid Date* (NaN timestamp) is `none : Option JSDate`.
* The timezone offset parameter `tz` stands for `new Date().getTimezoneOffset() / 60`
  (positive when local time is behind UTC), assumed to be a whole number of hours.
* JavaScript strings are `List Char`; `substring` is `take`/`drop`.
* Gregorian-calendar conversions model the ECMAScript `MakeDay` /
  `YearFromTime`/`MonthFromTime`/`DateFromTime` abstract operations
  (proleptic Gregorian calendar, no DST).
-/

/-! ## Proleptic Gregorian calendar arithmetic -/

/-- 1 for January/February, 0 otherwise: shift to the March-based year. -/
def leapAdjust (m : ℤ) : ℤ := if m ≤ 2 then 1 else 0

/-- Day of the March-based year from (civil month, day-of-month). -/
def doyOfMonthDay (m d : ℤ) : ℤ := (153 * (m + (if 2 < m then -3 else 9)) + 2) / 5 + d - 1

/-- Year within the 400-year era. -/
def yoeOfYear (w : ℤ) : ℤ := w - w / 400 * 400

/-- Civil date to days since 1970-01-01 (models ECMAScript `MakeDay`). -/
def daysFromCivil (y m d : ℤ) : ℤ :=
  (y - leapAdjust m) / 400 * 146097 +
    (yoeOfYear (y - leapAdjust m) * 365 + yoeOfYear (y - leapAdjust m) / 4 -
      yoeOfYear (y - leapAdjust m) / 100 + doyOfMonthDay m d) - 719468

/-- Day within the 400-year era of a day number. -/
def doeOfDays (z : ℤ) : ℤ := z + 719468 - (z + 719468) / 146097 * 146097

/-- Era (400-year block) of a day number. -/
def eraOfDays (z : ℤ) : ℤ := (z + 719468) / 146097

/-- Year-of-era from day-of-era: approximation plus one adjustment step. -/
def yoeOfDoe (doe : ℤ) : ℤ :=
  if 365 * (400 * doe / 146097 + 1) + (400 * doe / 146097 + 1) / 4 -
       (400 * doe / 146097 + 1) / 100 + (400 * doe / 146097 + 1) / 400 ≤ doe
  then 400 * doe / 146097 + 1 else 400 * doe / 146097

/-- Day within the (March-based) year-of-era. -/
def doyOfDoe (doe : ℤ) : ℤ :=
  doe - (365 * yoeOfDoe doe + yoeOfDoe doe / 4 - yoeOfDoe doe / 100)

/-- Shifted month index (March = 0) from day-of-year. -/
def mpOfDoy (doy : ℤ) : ℤ := (5 * doy + 2) / 153

/-- Civil month (1..12) from day of the March-based year. -/
def monthOfDoy (doy : ℤ) : ℤ := mpOfDoy doy + (if mpOfDoy doy < 10 then 3 else -9)

/-- Day-of-month from day of the March-based year. -/
def dayOfDoy (doy : ℤ) : ℤ := doy - (153 * mpOfDoy doy + 2) / 5 + 1

/-- Days since 1970-01-01 to civil (year, month, day): models the ECMAScript
`YearFromTime`/`MonthFromTime`/`DateFromTime` field extraction. -/
def civilFromDays (z : ℤ) : ℤ × ℤ × ℤ :=
  (yoeOfDoe (doeOfDays z) + eraOfDays z * 400 +
      leapAdjust (monthOfDoy (doyOfDoe (doeOfDays z))),
    monthOfDoy (doyOfDoe (doeOfDays z)),
    dayOfDoy (doyOfDoe (doeOfDays z)))

/-! ## JavaScript `Date` objects (valid instants) -/

/-- A JavaScript `Date` holding a valid instant, as its local civil fields.
`month` is the civil month 1..12 (note `Date.prototype.getMonth` is 0-based,
see `jsGetMonth`). -/
structure JSDate where
  year : ℤ
  month : ℤ
  day : ℤ
  hour : ℤ
deriving DecidableEq

/-- Hours since the local civil epoch: with the timezone offset fixed, two
`JSDate`s denote the same instant iff their `jsTime` agree, and instant
order is `jsTime` order. -/
def jsTime (t : JSDate) : ℤ := 24 * daysFromCivil t.year t.month t.day + t.hour

/-- `Date.prototype.getDate` (local day-of-month). -/
def jsGetDate (t : JSDate) : ℤ := t.day

/-- `Date.prototype.getMonth` (local month, 0-based). -/
def jsGetMonth (t : JSDate) : ℤ := t.month - 1

/-- `Date.prototype.getFullYear` (local year). -/
def jsGetFullYear (t : JSDate) : ℤ := t.year

/-- `Date.prototype.setDate v`: replace the local day-of-month by `v`,
normalizing overflow through the day count (ECMAScript `MakeDay y m (v-1)`),
keeping the time of day. -/
def jsSetDate (t : JSDate) (v : ℤ) : JSDate :=
  { year := (civilFromDays (daysFromCivil t.year t.month 1 + v - 1)).1
    month := (civilFromDays (daysFromCivil t.year t.month 1 + v - 1)).2.1
    day := (civilFromDays (daysFromCivil t.year t.month 1 + v - 1)).2.2
    hour := t.hour }

/-- Calendar-day addition: the date `n` days after `t`, same time of day. -/
def addDays (t : JSDate) (n : ℤ) : JSDate :=
  { year := (civilFromDays (daysFromCivil t.year t.month t.day + n)).1
    month := (civilFromDays (daysFromCivil t.year t.month t.day + n)).2.1
    day := (civilFromDays (daysFromCivil t.year t.month t.day + n)).2.2
    hour := t.hour }

/-! ## JavaScript strings and number formatting -/

/-- Decimal digits of `n`, most significant first (`fuel` bounds recursion
depth; `fuel > n` suffices). -/
def natDigitsAux : ℕ → ℕ → List Char
  | 0, _ => []
  | fuel + 1, n =>
    if n < 10 then [Nat.digitChar n]
    else natDigitsAux fuel (n / 10) ++ [Nat.digitChar (n % 10)]

/-- `String(n)` for a non-negative integer `n`. -/
def jsStringOfNat (n : ℕ) : List Char := natDigitsAux (n + 1) n

/-- `String(n)` for an integral JavaScript number. -/
def jsStringOfInt (n : ℤ) : List Char :=
  if n < 0 then '-' :: jsStringOfNat n.natAbs else jsStringOfNat n.toNat

/-- `String.prototype.padStart(len, c)`. -/
def jsPadStart (s : List Char) (len : ℕ) (c : Char) : List Char :=
  List.replicate (len - s.length) c ++ s

/-- Numeric value of a digit character. -/
def digitVal (c : Char) : ℕ := c.toNat - 48

/-- `parseInt(s)` restricted to the inputs this code feeds it (an all-digit
substring of a date string): value of the leading run of digits, `none` for
`NaN` when there is none. -/
def jsParseInt (s : List Char) : Option ℤ :=
  let ds := s.takeWhile Char.isDigit
  if ds.isEmpty then none
  else some (ds.foldl (fun a c => 10 * a + (digitVal c : ℤ)) 0)

/-! ## `new Date(string)` on ISO local date-time strings -/

/-- Gregorian leap year. -/
def isLeapYear (y : ℕ) : Bool := (y % 4 == 0 && y % 100 != 0) || y % 400 == 0

/-- Number of days in a civil month. -/
def daysInMonth (y m : ℕ) : ℕ :=
  if m = 2 then (if isLeapYear y then 29 else 28)
  else if m = 4 ∨ m = 6 ∨ m = 9 ∨ m = 11 then 30 else 31

/-- `new Date(s)` for the strings this code constructs:
`"YYYY-MM-DDTHH:00:00"` parsed as *local* time (ECMAScript Date Time String
Format without offset).  Out-of-range fields give an Invalid Date (`none`).
Only `:00:00` minute/second parts occur in this code, so others are not
modelled. -/
def jsParseDate (s : List Char) : Option JSDate :=
  match s with
  | [y1, y2, y3, y4, a, m1, m2, b, d1, d2, c, h1, h2, e, n1, n2, f, s1, s2] =>
    if a = '-' ∧ b = '-' ∧ c = 'T' ∧ e = ':' ∧ f = ':' ∧
        n1 = '0' ∧ n2 = '0' ∧ s1 = '0' ∧ s2 = '0' then
      if y1.isDigit && y2.isDigit && y3.isDigit && y4.isDigit && m1.isDigit && m2.isDigit &&
          d1.isDigit && d2.isDigit && h1.isDigit && h2.isDigit then
        if 1 ≤ digitVal m1 * 10 + digitVal m2 ∧ digitVal m1 * 10 + digitVal m2 ≤ 12 ∧
            1 ≤ digitVal d1 * 10 + digitVal d2 ∧
            digitVal d1 * 10 + digitVal d2 ≤
              daysInMonth
                (((digitVal y1 * 10 + digitVal y2) * 10 + digitVal y3) * 10 + digitVal y4)
                (digitVal m1 * 10 + digitVal m2) ∧
            digitVal h1 * 10 + digitVal h2 ≤ 23 then
          some ⟨(((digitVal y1 * 10 + digitVal y2) * 10 + digitVal y3) * 10 + digitVal y4 : ℕ),
            (digitVal m1 * 10 + digitVal m2 : ℕ), (digitVal d1 * 10 + digitVal d2 : ℕ),
            (digitVal h1 * 10 + digitVal h2 : ℕ)⟩
        else none
      else none
    else none
  | _ => none

/-! ## The date helpers of `client.js` -/

/-- `dateToStringConverter` (client.js:76): local `"YYYY-MM-DD"` rendering. -/
def dateToStringConverter (date : JSDate) : List Char :=
  jsStringOfInt (jsGetFullYear date) ++ ['-'] ++
    jsPadStart (jsStringOfInt (jsGetMonth date + 1)) 2 '0' ++ ['-'] ++
    jsPadStart (jsStringOfInt (jsGetDate date)) 2 '0'

/-- `getDateWithTimeString` (client.js:144): timezone-dependent surgery turning
`"YYYY-MM-DD"` into a local date-time string.  `tz` is
`new Date().getTimezoneOffset() / 60`, and a failing `parseInt` renders as the
string `"NaN"` (which later parses to an Invalid Date). -/
def getDateWithTimeString (tz : ℤ) (date : List Char) : List Char :=
  if tz > 0 then
    date ++ ['T'] ++ jsPadStart (jsStringOfInt tz) 2 '0' ++ [':', '0', '0', ':', '0', '0']
  else if tz < 0 then
    date.take 8 ++
      (match jsParseInt ((date.drop 8).take 2) with
        | some v => jsPadStart (jsStringOfInt (v - 1)) 2 '0'
        | none => ['N', 'a', 'N']) ++
      ['T'] ++ jsPadStart (jsStringOfInt (24 + tz)) 2 '0' ++ [':', '0', '0', ':', '0', '0']
  else date ++ ['T', '0', '0', ':', '0', '0', ':', '0', '0']

/-- `apodStringToDate` (client.js:101).  `today` stands for
`apodDateToString(new Date(), dateToStringConverter)`, the rendering of the
current date used when the input is empty. -/
def apodStringToDate (tz : ℤ) (today : List Char) (date : List Char) : Option JSDate :=
  jsParseDate (getDateWithTimeString tz (if date ≠ [] then date else today))

/-! ## The rover manifest and `getRoverInfo` -/

/-- One entry of `photo_manifest.photos`. -/
structure Photo where
  sol : ℕ
  earth_date : List Char
deriving DecidableEq

/-- The fields of `manifest.photo_manifest` that `getRoverInfo` reads. -/
structure Manifest where
  name : List Char
  launch_date : List Char
  landing_date : List Char
  total_photos : ℕ
  status : List Char
  photos : List Photo
deriving DecidableEq

/-- The `selectedRoverInfo` record built by `getRoverInfo` (client.js:311).
Date-valued fields are `Option JSDate`: `none` is a JavaScript Invalid Date. -/
structure RoverInfo where
  name : List Char
  minDate : Option JSDate
  maxDate : Option JSDate
  disabledDates : List (Option JSDate)
  startDate : Option JSDate
  launchDate : List Char
  landingDate : List Char
  totalPhotos : ℕ
  completedDate : Option JSDate
  status : List Char
deriving DecidableEq

/-- `Array.prototype.slice(i)` for an integral argument. -/
def jsSlice {α : Type} (l : List α) (i : ℤ) : List α :=
  if i < 0 then l.drop (l.length - i.natAbs) else l.drop i.toNat

/-- The `cutOff` of client.js:292 (a negative slice index). -/
def jsCutOff (name : List Char) : ℤ :=
  if name = "Curiosity".toList then -1 else if name = "Spirit".toList then -17 else -5

/-- `missingSols` (client.js:294): sols in `[0, lastPhoto.sol)` absent from the
manifest (`Array(n).fill().map((x, i) => i)` enumerates `0..n-1`). -/
def missingSols (photos : List Photo) (lastPhoto : Photo) : List ℕ :=
  (List.range lastPhoto.sol).filter (fun sol => !((photos.map Photo.sol).contains sol))

/-- The disabled date computed for one missing sol (client.js:298-307): the
first entry's date shifted by `sol + ⌊sol/37⌋ + ⌊sol/1493⌋` days via `setDate`. -/
def solDate (tz : ℤ) (today : List Char) (firstDateStr : List Char) (sol : ℕ) :
    Option JSDate :=
  (apodStringToDate tz today firstDateStr).map (fun baseDate =>
    jsSetDate baseDate
      (jsGetDate baseDate + ((sol : ℤ) + (sol : ℤ) / 37 + (sol : ℤ) / 1493)))

/-- The availability computation of `getRoverInfo` (client.js:289-328),
producing the new `selectedRoverInfo`.  `none` models the TypeError crash on an
empty photo sequence (`photos.slice(-1)[0]` is `undefined`). -/
def getRoverInfo (tz : ℤ) (today : List Char) (m : Manifest) : Option RoverInfo := do
  let lastPhoto ← (jsSlice m.photos (-1)).head?
  let firstPhoto ← m.photos.head?
  let boundaryPhoto ← (jsSlice m.photos (jsCutOff m.name)).head?
  some
    { name := m.name
      minDate := apodStringToDate tz today firstPhoto.earth_date
      maxDate := apodStringToDate tz today boundaryPhoto.earth_date
      disabledDates := (missingSols m.photos lastPhoto).map
        (solDate tz today firstPhoto.earth_date)
      startDate := apodStringToDate tz today boundaryPhoto.earth_date
      launchDate := m.launch_date
      landingDate := m.landing_date
      totalPhotos := m.total_photos
      completedDate := apodStringToDate tz today lastPhoto.earth_date
      status := m.status }

/-- The `photos` sub-record set by `getRoverInfo` (client.js:323). -/
structure RoverPhotosState where
  reqDate : List Char
  date : List Char
  images : List (List Char)
deriving DecidableEq

/-- The `state.rovers` record (the slice of the store `getRoverInfo` replaces). -/
structure RoversState where
  selectedRover : List Char
  selectedRoverInfo : Option RoverInfo
  photos : RoverPhotosState
deriving DecidableEq

/-- The full `state.rovers` replacement built by `getRoverInfo`
(client.js:309-328): every field of the rovers slice is overwritten, so the
`Object.assign` merge is a wholesale replacement. -/
def roverInfoUpdate (tz : ℤ) (today : List Char) (s : RoversState) (m : Manifest) :
    Option RoversState := do
  let info ← getRoverInfo tz today m
  let boundaryPhoto ← (jsSlice m.photos (jsCutOff m.name)).head?
  some
    { selectedRover := s.selectedRover
      selectedRoverInfo := some info
      photos := { reqDate := boundaryPhoto.earth_date, date := [], images := [] } }

/-! ## Concrete instances -/

/-- The zero-padded `"YYYY-MM-DD"` rendering of a calendar date: the shape of a
well-formed date string (built from the same formatting primitives the code's
`dateToStringConverter` uses). -/
def mkDateString (y mo dy : ℕ) : List Char :=
  jsStringOfNat y ++ ['-'] ++ jsPadStart (jsStringOfNat mo) 2 '0' ++ ['-'] ++
    jsPadStart (jsStringOfNat dy) 2 '0'

/-- The spec's own example: a two-entry Opportunity manifest. -/
def exampleOpportunityManifest : Manifest :=
  { name := "Opportunity".toList, launch_date := [], landing_date := [],
    total_photos := 2, status := [],
    photos := [⟨0, "2020-01-01".toList⟩, ⟨2, "2020-01-03".toList⟩] }

/-- A manifest whose photo record starts at sol 1, so sol 0 is missing. -/
def skippedSolZeroManifest : Manifest :=
  { name := "Spirit".toList, launch_date := [], landing_date := [],
    total_photos := 1, status := [],
    photos := [⟨1, "2020-01-01".toList⟩] }

/-- Sols 0..3 with exactly sol 2 missing. -/
def oneGapManifest : Manifest :=
  { name := "Curiosity".toList, launch_date := [], landing_date := [],
    total_photos := 3, status := [],
    photos := [⟨0, "2020-01-01".toList⟩, ⟨1, "2020-01-02".toList⟩, ⟨3, "2020-01-04".toList⟩] }

/-- Sols 0..1 all present. -/
def completeManifest : Manifest :=
  { name := "Curiosity".toList, launch_date := [], landing_date := [],
    total_photos := 2, status := [],
    photos := [⟨0, "2020-01-01".toList⟩, ⟨1, "2020-01-02".toList⟩] }

/-- Sols 0 and 3 recorded, sols 1 and 2 missing. -/
def twoGapManifest : Manifest :=
  { name := "Spirit".toList, launch_date := [], landing_date := [],
    total_photos := 2, status := [],
    photos := [⟨0, "2020-01-01".toList⟩, ⟨3, "2020-01-04".toList⟩] }

/-- Six entries for a rover that is neither Curiosity nor Spirit (cutoff 5). -/
def sixEntryManifest : Manifest :=
  { name := "Opportunity".toList, launch_date := [], landing_date := [],
    total_photos := 6, status := [],
    photos := [⟨0, "2020-01-01".toList⟩, ⟨1, "2020-01-02".toList⟩, ⟨2, "2020-01-03".toList⟩,
      ⟨3, "2020-01-04".toList⟩, ⟨4, "2020-01-05".toList⟩, ⟨5, "2020-01-06".toList⟩] }

/-! ## Calendar arithmetic lemmas -/

theorem yoeOfDoe_bounds (doe : ℤ) (h1 : 0 ≤ doe) (h2 : doe ≤ 146096) :
    0 ≤ yoeOfDoe doe ∧ yoeOfDoe doe ≤ 399 := by
  have hb : 400 * doe / 146097 ≤ 398 ∨ 400 * doe / 146097 = 399 := by omega
  unfold yoeOfDoe
  split <;> rcases hb with hb | hb <;> omega

theorem doyOfDoe_bounds (doe : ℤ) (h1 : 0 ≤ doe) (h2 : doe ≤ 146096) :
    0 ≤ doyOfDoe doe ∧ doyOfDoe doe ≤ 365 := by
  have hb : 400 * doe / 146097 ≤ 398 ∨ 400 * doe / 146097 = 399 := by omega
  have hc : (400 * doe / 146097 + 1) / 4 ≤ 400 * doe / 146097 / 4 + 1 := by omega
  have hd : 400 * doe / 146097 / 100 ≤ (400 * doe / 146097 + 1) / 100 := by omega
  have he : 400 * doe / 146097 ≤ 398 → (400 * doe / 146097 + 1) / 400 = 0 := by omega
  unfold doyOfDoe yoeOfDoe
  split <;> rcases hb with hb | hb <;> omega

theorem doyOfDoe_eq (doe : ℤ) :
    doyOfDoe doe = doe - (365 * yoeOfDoe doe + yoeOfDoe doe / 4 - yoeOfDoe doe / 100) := rfl

theorem mpOfDoy_bounds (doy : ℤ) (h1 : 0 ≤ doy) (h2 : doy ≤ 365) :
    0 ≤ mpOfDoy doy ∧ mpOfDoy doy ≤ 11 := by
  unfold mpOfDoy; omega

theorem doy_reconstruct (doy : ℤ) (h1 : 0 ≤ doy) (h2 : doy ≤ 365) :
    doyOfMonthDay (monthOfDoy doy) (dayOfDoy doy) = doy := by
  unfold doyOfMonthDay monthOfDoy dayOfDoy mpOfDoy
  by_cases h : (5 * doy + 2) / 153 < 10
  · rw [if_pos h, if_pos (by omega)]
    omega
  · rw [if_neg h, if_neg (by omega)]
    omega

theorem daysFromCivil_assemble (era yoe doy z : ℤ) (h1 : 0 ≤ yoe) (h2 : yoe ≤ 399)
    (hz : z = era * 146097 + (365 * yoe + yoe / 4 - yoe / 100 + doy) - 719468) :
    (yoe + era * 400) / 400 * 146097 +
      (yoeOfYear (yoe + era * 400) * 365 + yoeOfYear (yoe + era * 400) / 4 -
        yoeOfYear (yoe + era * 400) / 100 + doy) - 719468 = z := by
  unfold yoeOfYear
  omega

/-- The conversions between day numbers and civil dates invert: extracting the
civil fields of a day number and re-running `MakeDay` recovers the day number. -/
theorem daysFromCivil_civilFromDays (z : ℤ) :
    daysFromCivil (civilFromDays z).1 (civilFromDays z).2.1 (civilFromDays z).2.2 = z := by
  have hdoe1 : 0 ≤ doeOfDays z := by unfold doeOfDays; omega
  have hdoe2 : doeOfDays z ≤ 146096 := by unfold doeOfDays; omega
  have hz : z = eraOfDays z * 146097 + doeOfDays z - 719468 := by
    unfold doeOfDays eraOfDays; omega
  obtain ⟨hy1, hy2⟩ := yoeOfDoe_bounds _ hdoe1 hdoe2
  obtain ⟨hd1, hd2⟩ := doyOfDoe_bounds _ hdoe1 hdoe2
  have hrec := doy_reconstruct _ hd1 hd2
  have hdoy := doyOfDoe_eq (doeOfDays z)
  have hz2 : z = eraOfDays z * 146097 +
      (365 * yoeOfDoe (doeOfDays z) + yoeOfDoe (doeOfDays z) / 4 -
        yoeOfDoe (doeOfDays z) / 100 + doyOfDoe (doeOfDays z)) - 719468 := by
    omega
  show daysFromCivil
      (yoeOfDoe (doeOfDays z) + eraOfDays z * 400 +
        leapAdjust (monthOfDoy (doyOfDoe (doeOfDays z))))
      (monthOfDoy (doyOfDoe (doeOfDays z))) (dayOfDoy (doyOfDoe (doeOfDays z))) = z
  unfold daysFromCivil leapAdjust
  by_cases hle : monthOfDoy (doyOfDoe (doeOfDays z)) ≤ 2
  · rw [if_pos hle]
    rw [hrec]
    rw [show yoeOfDoe (doeOfDays z) + eraOfDays z * 400 + 1 - 1 =
          yoeOfDoe (doeOfDays z) + eraOfDays z * 400 from by ring]
    exact daysFromCivil_assemble _ _ _ _ hy1 hy2 hz2
  · rw [if_neg hle]
    rw [hrec]
    rw [show yoeOfDoe (doeOfDays z) + eraOfDays z * 400 + 0 - 0 =
          yoeOfDoe (doeOfDays z) + eraOfDays z * 400 from by ring]
    exact daysFromCivil_assemble _ _ _ _ hy1 hy2 hz2

/-- `MakeDay` is linear in the day-of-month argument. -/
theorem daysFromCivil_day_linear (y m d : ℤ) :
    daysFromCivil y m d = daysFromCivil y m 1 + d - 1 := by
  unfold daysFromCivil doyOfMonthDay
  omega

/-! ## `JSDate` lemmas -/

/-- `baseDate.setDate(baseDate.getDate() + n)` is calendar-day addition. -/
theorem jsSetDate_base_add (t : JSDate) (n : ℤ) :
    jsSetDate t (jsGetDate t + n) = addDays t n := by
  have harg : daysFromCivil t.year t.month 1 + (jsGetDate t + n) - 1 =
      daysFromCivil t.year t.month t.day + n := by
    have := daysFromCivil_day_linear t.year t.month t.day
    unfold jsGetDate
    omega
  unfold jsSetDate addDays
  rw [harg]

/-- Shifting a date by `n` days shifts its instant by `24 * n` hours. -/
theorem jsTime_addDays (t : JSDate) (n : ℤ) :
    jsTime (addDays t n) = jsTime t + 24 * n := by
  unfold jsTime addDays
  simp only []
  rw [daysFromCivil_civilFromDays]
  ring

/-! ## List access helpers -/

theorem head?_drop_getD {α : Type} (l : List α) (n : ℕ) (d : α) (h : n < l.length) :
    (l.drop n).head? = some (l.getD n d) := by
  rw [List.head?_drop, List.getD_eq_getElem?_getD, List.getElem?_eq_getElem h]
  rfl

theorem getD_default_irrel {α : Type} (l : List α) (n : ℕ) (d1 d2 : α) (h : n < l.length) :
    l.getD n d1 = l.getD n d2 := by
  rw [List.getD_eq_getElem?_getD, List.getD_eq_getElem?_getD, List.getElem?_eq_getElem h]
  rfl

theorem jsCutOff_neg (name : List Char) : jsCutOff name < 0 := by
  unfold jsCutOff
  split
  · norm_num
  · split <;> norm_num

theorem jsCutOff_natAbs_pos (name : List Char) : 1 ≤ (jsCutOff name).natAbs := by
  have := jsCutOff_neg name
  omega

/-- Master evaluation of `getRoverInfo` on a non-empty manifest: every field in
terms of list indexing. -/
theorem getRoverInfo_fields (tz : ℤ) (today : List Char) (m : Manifest) (p : Photo)
    (hp : m.photos.head? = some p) :
    getRoverInfo tz today m = some
      { name := m.name
        minDate := apodStringToDate tz today p.earth_date
        maxDate := apodStringToDate tz today
          ((m.photos.getD (m.photos.length - (jsCutOff m.name).natAbs) p).earth_date)
        disabledDates := (missingSols m.photos (m.photos.getD (m.photos.length - 1) p)).map
          (solDate tz today p.earth_date)
        startDate := apodStringToDate tz today
          ((m.photos.getD (m.photos.length - (jsCutOff m.name).natAbs) p).earth_date)
        launchDate := m.launch_date
        landingDate := m.landing_date
        totalPhotos := m.total_photos
        completedDate := apodStringToDate tz today
          ((m.photos.getD (m.photos.length - 1) p).earth_date)
        status := m.status } := by
  have hlen : 1 ≤ m.photos.length := by
    cases hm : m.photos
    · rw [hm] at hp; simp at hp
    · simp [hm]
  have h1 : (jsSlice m.photos (-1)).head? =
      some (m.photos.getD (m.photos.length - 1) p) := by
    unfold jsSlice
    rw [if_pos (by norm_num)]
    exact head?_drop_getD _ _ _ (by omega)
  have h2 : (jsSlice m.photos (jsCutOff m.name)).head? =
      some (m.photos.getD (m.photos.length - (jsCutOff m.name).natAbs) p) := by
    unfold jsSlice
    rw [if_pos (jsCutOff_neg m.name)]
    exact head?_drop_getD _ _ _
      (by have := jsCutOff_natAbs_pos m.name; omega)
  unfold getRoverInfo
  rw [h1, hp, h2]
  rfl

/-! ## C2: there is no InvalidManifestError -/

/-- C2 (amended): the availability computation fails exactly when the photo
sequence is empty (a TypeError dereferencing the last entry, modelled `none`);
a non-empty sequence of length at most the cutoff does NOT fail — there is no
`InvalidManifestError` in the code. -/
theorem c2_fails_iff_photos_empty (tz : ℤ) (today : List Char) (m : Manifest) :
    getRoverInfo tz today m = none ↔ m.photos = [] := by
  constructor
  · intro h
    cases hm : m.photos with
    | nil => rfl
    | cons p rest =>
      rw [getRoverInfo_fields tz today m p (by rw [hm]; rfl)] at h
      exact Option.noConfusion h
  · intro h
    unfold getRoverInfo
    rw [show jsSlice m.photos (-1) = [] from by unfold jsSlice; rw [h]; split <;> rfl]
    rfl

/-- C2 (counterexample): the spec's own example — a two-entry manifest for
Opportunity (cutoff 5) — does not fail: the computation produces a result. -/
theorem c2_counterexample_short_manifest_succeeds :
    (getRoverInfo 0 [] exampleOpportunityManifest).isSome = true := by decide

/-! ## C10: short manifests clamp to the first entry -/

/-- C10: a non-empty photo sequence no longer than the cutoff raises no error;
negative-index slicing clamps to the start, so `maxDate` and `startDate` both
equal the first entry's date, which is `minDate`. -/
theorem c10_short_manifest_clamps (tz : ℤ) (today : List Char) (m : Manifest) (p : Photo)
    (hp : m.photos.head? = some p)
    (hshort : m.photos.length ≤ (jsCutOff m.name).natAbs) :
    ∃ r, getRoverInfo tz today m = some r ∧
      r.maxDate = apodStringToDate tz today p.earth_date ∧
      r.startDate = apodStringToDate tz today p.earth_date ∧
      r.minDate = apodStringToDate tz today p.earth_date := by
  obtain ⟨rest, hrest⟩ := List.head?_eq_some_iff.mp hp
  have hidx : m.photos.length - (jsCutOff m.name).natAbs = 0 := by omega
  refine ⟨_, getRoverInfo_fields tz today m p hp, ?_, ?_, rfl⟩ <;>
    rw [hidx, hrest, List.getD_cons_zero]

theorem c10_witness :
    (exampleOpportunityManifest.photos.head? = some ⟨0, "2020-01-01".toList⟩ ∧
      exampleOpportunityManifest.photos.length ≤
        (jsCutOff exampleOpportunityManifest.name).natAbs) ∧
    ∃ r, getRoverInfo 0 [] exampleOpportunityManifest = some r ∧
      r.maxDate = apodStringToDate 0 [] "2020-01-01".toList ∧
      r.startDate = apodStringToDate 0 [] "2020-01-01".toList ∧
      r.minDate = apodStringToDate 0 [] "2020-01-01".toList :=
  ⟨⟨by decide, by decide⟩,
    c10_short_manifest_clamps 0 [] exampleOpportunityManifest ⟨0, "2020-01-01".toList⟩
      (by decide) (by decide)⟩

/-! ## C3: rover-specific cutoff and the usable boundary -/

/-- C3: the cutoff window is 1 for Curiosity, 17 for Spirit and 5 otherwise,
and for a manifest longer than the cutoff, `maxDate` is the date of the entry
at index `length - cutoff`. -/
theorem c3_cutoff_boundary (tz : ℤ) (today : List Char) (m : Manifest)
    (hlen : (jsCutOff m.name).natAbs < m.photos.length) :
    (jsCutOff m.name).natAbs =
      (if m.name = "Curiosity".toList then 1 else
        if m.name = "Spirit".toList then 17 else 5) ∧
    ∃ r, getRoverInfo tz today m = some r ∧
      r.maxDate = apodStringToDate tz today
        ((m.photos.getD (m.photos.length - (jsCutOff m.name).natAbs) ⟨0, []⟩).earth_date) := by
  constructor
  · unfold jsCutOff
    split_ifs <;> rfl
  · cases hm : m.photos with
    | nil => rw [hm] at hlen; simp at hlen
    | cons p rest =>
      refine ⟨_, getRoverInfo_fields tz today m p (by rw [hm]; rfl), ?_⟩
      simp only []
      rw [getD_default_irrel m.photos _ p ⟨0, []⟩
        (by have := jsCutOff_natAbs_pos m.name; omega), hm]

theorem c3_witness :
    (jsCutOff sixEntryManifest.name).natAbs < sixEntryManifest.photos.length ∧
    ((jsCutOff sixEntryManifest.name).natAbs =
      (if sixEntryManifest.name = "Curiosity".toList then 1 else
        if sixEntryManifest.name = "Spirit".toList then 17 else 5) ∧
    ∃ r, getRoverInfo 0 [] sixEntryManifest = some r ∧
      r.maxDate = apodStringToDate 0 []
        ((sixEntryManifest.photos.getD
          (sixEntryManifest.photos.length - (jsCutOff sixEntryManifest.name).natAbs)
          ⟨0, []⟩).earth_date)) :=
  ⟨by decide, c3_cutoff_boundary 0 [] sixEntryManifest (by decide)⟩

/-! ## Missing-sol lemmas -/

theorem mem_missingSols (photos : List Photo) (lastP : Photo) (s : ℕ) :
    s ∈ missingSols photos lastP ↔ s < lastP.sol ∧ s ∉ photos.map Photo.sol := by
  unfold missingSols
  rw [List.mem_filter, List.mem_range]
  simp [List.elem_iff]

theorem missingSols_eq_nil (photos : List Photo) (lastP : Photo)
    (hall : ∀ s : ℕ, s ≤ lastP.sol → s ∈ photos.map Photo.sol) :
    missingSols photos lastP = [] := by
  rw [List.eq_nil_iff_forall_not_mem]
  intro s
  rw [mem_missingSols]
  rintro ⟨h1, h2⟩
  exact h2 (hall s (le_of_lt h1))

theorem filter_range_singleton (N k : ℕ) (hk : k < N) (p : ℕ → Bool)
    (hp : ∀ s, s < N → (p s = true ↔ s = k)) :
    (List.range N).filter p = [k] := by
  induction N with
  | zero => omega
  | succ n ih =>
    rw [List.range_succ, List.filter_append]
    by_cases hkn : k < n
    · rw [ih hkn (fun s hs => hp s (by omega))]
      have hn : p n = false := by
        cases hpn : p n with
        | false => rfl
        | true => exact absurd ((hp n (by omega)).mp hpn) (by omega)
      simp [hn]
    · have hkn' : k = n := by omega
      subst hkn'
      have h1 : (List.range k).filter p = [] := by
        rw [List.filter_eq_nil_iff]
        intro a ha hpa
        rw [List.mem_range] at ha
        exact absurd ((hp a (by omega)).mp hpa) (by omega)
      have h2 : p k = true := (hp k (by omega)).mpr rfl
      rw [h1]
      simp [h2]

theorem getD_map_sol (photos : List Photo) (i : ℕ) (d : Photo) (h : i < photos.length) :
    (photos.getD i d).sol = (photos.map Photo.sol).getD i d.sol := by
  rw [List.getD_eq_getElem?_getD, List.getD_eq_getElem?_getD, List.getElem?_map,
    List.getElem?_eq_getElem h]
  rfl

theorem filter_range_succ_getD_last (N : ℕ) (q : ℕ → Bool) (hq : q N = true) (d : ℕ) :
    ((List.range (N + 1)).filter q).getD (((List.range (N + 1)).filter q).length - 1) d
      = N := by
  rw [List.range_succ, List.filter_append]
  have h2 : List.filter q [N] = [N] := by simp [hq]
  rw [h2, List.length_append]
  rw [List.getD_append_right _ _ _ _ (by simp)]
  simp

/-! ## C6: complete manifests have no disabled dates -/

/-- C6: when every sol from 0 to the last recorded sol is present in the
manifest, `disabledDates` is empty. -/
theorem c6_complete_manifest_no_disabled (tz : ℤ) (today : List Char) (m : Manifest)
    (p : Photo) (hp : m.photos.head? = some p)
    (hall : ∀ s : ℕ, s ≤ (m.photos.getD (m.photos.length - 1) p).sol →
      s ∈ m.photos.map Photo.sol) :
    ∃ r, getRoverInfo tz today m = some r ∧ r.disabledDates = [] := by
  refine ⟨_, getRoverInfo_fields tz today m p hp, ?_⟩
  simp only []
  rw [missingSols_eq_nil _ _ hall]
  rfl

theorem c6_witness :
    (completeManifest.photos.head? = some ⟨0, "2020-01-01".toList⟩ ∧
      ∀ s : ℕ, s ≤ (completeManifest.photos.getD
          (completeManifest.photos.length - 1) ⟨0, "2020-01-01".toList⟩).sol →
        s ∈ completeManifest.photos.map Photo.sol) ∧
    ∃ r, getRoverInfo 0 [] completeManifest = some r ∧ r.disabledDates = [] :=
  ⟨⟨by decide, by decide⟩,
    c6_complete_manifest_no_disabled 0 [] completeManifest ⟨0, "2020-01-01".toList⟩
      (by decide) (by decide)⟩

/-! ## C1: exactly one missing sol -/

theorem solDate_eval (tz : ℤ) (today firstStr : List Char) (d0 : JSDate) (sol : ℕ)
    (hd0 : apodStringToDate tz today firstStr = some d0) :
    solDate tz today firstStr sol =
      some (addDays d0 ((sol : ℤ) + (sol : ℤ) / 37 + (sol : ℤ) / 1493)) := by
  unfold solDate
  rw [hd0, Option.map_some', jsSetDate_base_add]

/-- C1: for a manifest recording sols `0..N` with exactly sol `k` missing
(`0 < k < N`), `disabledDates` is exactly one date: `minDate` plus
`k + ⌊k/37⌋ + ⌊k/1493⌋` days. -/
theorem c1_one_missing_sol (tz : ℤ) (today : List Char) (m : Manifest) (N k : ℕ)
    (p : Photo) (d0 : JSDate)
    (hp : m.photos.head? = some p)
    (hmap : m.photos.map Photo.sol = (List.range (N + 1)).filter (fun s => s ≠ k))
    (hk0 : 0 < k) (hkN : k < N)
    (hd0 : apodStringToDate tz today p.earth_date = some d0) :
    (getRoverInfo tz today m).map (fun r => (r.minDate, r.disabledDates)) =
      some (some d0, [some (addDays d0 ((k : ℤ) + (k : ℤ) / 37 + (k : ℤ) / 1493))]) := by
  have hlen1 : 1 ≤ m.photos.length := by
    cases hm : m.photos
    · rw [hm] at hp; exact Option.noConfusion hp
    · simp [hm]
  have hmem : ∀ s : ℕ, (m.photos.map Photo.sol).contains s = true ↔ s < N + 1 ∧ s ≠ k := by
    intro s
    rw [List.elem_iff, hmap, List.mem_filter, List.mem_range]
    simp
  have hlast : (m.photos.getD (m.photos.length - 1) p).sol = N := by
    rw [getD_map_sol _ _ _ (by omega), hmap]
    have hlen : m.photos.length =
        ((List.range (N + 1)).filter (fun s => decide (s ≠ k))).length := by
      rw [← List.length_map m.photos Photo.sol, hmap]
    rw [hlen]
    exact filter_range_succ_getD_last N _ (by simp; omega) p.sol
  have hmiss : missingSols m.photos (m.photos.getD (m.photos.length - 1) p) = [k] := by
    unfold missingSols
    rw [hlast]
    apply filter_range_singleton N k hkN
    intro s hs
    cases hc : (m.photos.map Photo.sol).contains s with
    | false =>
      simp only [hc, Bool.not_false]
      constructor
      · intro _
        by_contra hne
        have : (m.photos.map Photo.sol).contains s = true :=
          (hmem s).mpr ⟨by omega, hne⟩
        rw [hc] at this
        exact Bool.noConfusion this
      · intro _; trivial
    | true =>
      simp only [hc, Bool.not_true]
      constructor
      · intro h; exact Bool.noConfusion h
      · intro hsk; exact absurd hsk ((hmem s).mp hc).2
  rw [getRoverInfo_fields tz today m p hp, Option.map_some']
  rw [hmiss]
  show some (apodStringToDate tz today p.earth_date,
    [solDate tz today p.earth_date k]) = _
  rw [hd0, solDate_eval tz today p.earth_date d0 k hd0]

theorem c1_witness :
    (oneGapManifest.photos.head? = some ⟨0, "2020-01-01".toList⟩ ∧
      oneGapManifest.photos.map Photo.sol = (List.range 4).filter (fun s => s ≠ 2) ∧
      (0 : ℕ) < 2 ∧ (2 : ℕ) < 3 ∧
      apodStringToDate 0 [] "2020-01-01".toList = some ⟨2020, 1, 1, 0⟩) ∧
    (getRoverInfo 0 [] oneGapManifest).map (fun r => (r.minDate, r.disabledDates)) =
      some (some ⟨2020, 1, 1, 0⟩,
        [some (addDays ⟨2020, 1, 1, 0⟩ ((2 : ℤ) + (2 : ℤ) / 37 + (2 : ℤ) / 1493))]) :=
  ⟨⟨by decide, by decide, by decide, by decide, by decide⟩,
    c1_one_missing_sol 0 [] oneGapManifest 3 2 ⟨0, "2020-01-01".toList⟩ ⟨2020, 1, 1, 0⟩
      (by decide) (by decide) (by decide) (by decide) (by decide)⟩

/-! ## C7: the missing-sol to date mapping is strictly increasing -/

/-- C7: for two missing sols `s1 < s2`, the disabled date computed for `s1` is
a strictly earlier instant than the one computed for `s2`. -/
theorem c7_sol_date_strict_mono (tz : ℤ) (today : List Char) (m : Manifest) (p : Photo)
    (s1 s2 : ℕ) (d0 : JSDate)
    (hp : m.photos.head? = some p)
    (h1 : s1 ∈ missingSols m.photos (m.photos.getD (m.photos.length - 1) p))
    (h2 : s2 ∈ missingSols m.photos (m.photos.getD (m.photos.length - 1) p))
    (h12 : s1 < s2)
    (hd0 : apodStringToDate tz today p.earth_date = some d0) :
    ∃ e1 e2, solDate tz today p.earth_date s1 = some e1 ∧
      solDate tz today p.earth_date s2 = some e2 ∧ jsTime e1 < jsTime e2 := by
  refine ⟨_, _, solDate_eval tz today p.earth_date d0 s1 hd0,
    solDate_eval tz today p.earth_date d0 s2 hd0, ?_⟩
  rw [jsTime_addDays, jsTime_addDays]
  have : (s1 : ℤ) + (s1 : ℤ) / 37 + (s1 : ℤ) / 1493 <
      (s2 : ℤ) + (s2 : ℤ) / 37 + (s2 : ℤ) / 1493 := by omega
  omega

theorem c7_witness :
    (twoGapManifest.photos.head? = some ⟨0, "2020-01-01".toList⟩ ∧
      1 ∈ missingSols twoGapManifest.photos
        (twoGapManifest.photos.getD (twoGapManifest.photos.length - 1)
          ⟨0, "2020-01-01".toList⟩) ∧
      2 ∈ missingSols twoGapManifest.photos
        (twoGapManifest.photos.getD (twoGapManifest.photos.length - 1)
          ⟨0, "2020-01-01".toList⟩) ∧
      (1 : ℕ) < 2 ∧
      apodStringToDate 0 [] "2020-01-01".toList = some ⟨2020, 1, 1, 0⟩) ∧
    ∃ e1 e2, solDate 0 [] "2020-01-01".toList 1 = some e1 ∧
      solDate 0 [] "2020-01-01".toList 2 = some e2 ∧ jsTime e1 < jsTime e2 :=
  ⟨⟨by decide, by decide, by decide, by decide, by decide⟩,
    c7_sol_date_strict_mono 0 [] twoGapManifest ⟨0, "2020-01-01".toList⟩ 1 2
      ⟨2020, 1, 1, 0⟩ (by decide) (by decide) (by decide) (by decide) (by decide)⟩

/-! ## C4: disabled dates versus manifest dates -/

/-- C4 (counterexample): for a manifest whose photo record starts at sol 1,
sol 0 is missing and its disabled date is exactly `minDate`, so
`disabledDates` does contain `minDate`. -/
theorem c4_counterexample_minDate_disabled :
    (getRoverInfo 0 [] skippedSolZeroManifest).map RoverInfo.disabledDates =
      some [(getRoverInfo 0 [] skippedSolZeroManifest).bind RoverInfo.minDate] := by
  decide

/-- C4 (amended): when sol 0 is recorded and every entry's earth date equals
the first date shifted by its sol's drift `sol + ⌊sol/37⌋ + ⌊sol/1493⌋`,
no disabled date equals `minDate` or any manifest date. -/
theorem c4_disabled_disjoint (tz : ℤ) (today : List Char) (m : Manifest)
    (p : Photo) (d0 : JSDate)
    (hp : m.photos.head? = some p)
    (hd0 : apodStringToDate tz today p.earth_date = some d0)
    (hsol0 : 0 ∈ m.photos.map Photo.sol)
    (hfollow : ∀ q ∈ m.photos, apodStringToDate tz today q.earth_date =
      some (addDays d0 ((q.sol : ℤ) + (q.sol : ℤ) / 37 + (q.sol : ℤ) / 1493))) :
    ∀ r, getRoverInfo tz today m = some r → ∀ dd ∈ r.disabledDates,
      dd ≠ r.minDate ∧ ∀ q ∈ m.photos, dd ≠ apodStringToDate tz today q.earth_date := by
  intro r hr dd hdd
  rw [getRoverInfo_fields tz today m p hp] at hr
  have hrec := Option.some.inj hr
  subst hrec
  replace hdd : dd ∈ (missingSols m.photos (m.photos.getD (m.photos.length - 1) p)).map
      (solDate tz today p.earth_date) := hdd
  rw [List.mem_map] at hdd
  obtain ⟨s, hs, rfl⟩ := hdd
  rw [mem_missingSols] at hs
  obtain ⟨hslt, hsnot⟩ := hs
  rw [solDate_eval tz today p.earth_date d0 s hd0]
  constructor
  · show some (addDays d0 _) ≠ apodStringToDate tz today p.earth_date
    rw [hd0]
    intro h
    have h2 := congrArg jsTime (Option.some.inj h)
    rw [jsTime_addDays] at h2
    have hs0 : s = 0 := by omega
    exact hsnot (hs0 ▸ hsol0)
  · intro q hq heq
    rw [hfollow q hq] at heq
    have h2 := congrArg jsTime (Option.some.inj heq)
    rw [jsTime_addDays, jsTime_addDays] at h2
    have hsq : s = q.sol := by omega
    exact hsnot (hsq ▸ List.mem_map_of_mem Photo.sol hq)

theorem c4_witness :
    (exampleOpportunityManifest.photos.head? = some ⟨0, "2020-01-01".toList⟩ ∧
      apodStringToDate 0 [] "2020-01-01".toList = some ⟨2020, 1, 1, 0⟩ ∧
      0 ∈ exampleOpportunityManifest.photos.map Photo.sol ∧
      ∀ q ∈ exampleOpportunityManifest.photos, apodStringToDate 0 [] q.earth_date =
        some (addDays ⟨2020, 1, 1, 0⟩
          ((q.sol : ℤ) + (q.sol : ℤ) / 37 + (q.sol : ℤ) / 1493))) ∧
    ∀ r, getRoverInfo 0 [] exampleOpportunityManifest = some r →
      ∀ dd ∈ r.disabledDates, dd ≠ r.minDate ∧
        ∀ q ∈ exampleOpportunityManifest.photos,
          dd ≠ apodStringToDate 0 [] q.earth_date :=
  ⟨⟨by decide, by decide, by decide, by decide⟩,
    c4_disabled_disjoint 0 [] exampleOpportunityManifest ⟨0, "2020-01-01".toList⟩
      ⟨2020, 1, 1, 0⟩ (by decide) (by decide) (by decide) (by decide)⟩

/-! ## C5: date-range ordering -/

/-- C5: on a non-empty manifest ordered ascending by sol with ascending earth
dates, the result satisfies `minDate ≤ startDate = maxDate ≤ completedDate`
(instants compared through `jsTime`). -/
theorem c5_date_order (tz : ℤ) (today : List Char) (m : Manifest) (p : Photo)
    (hp : m.photos.head? = some p)
    (hsol : m.photos.Pairwise (fun a b => a.sol ≤ b.sol))
    (hmono : m.photos.Pairwise (fun a b =>
      ((apodStringToDate tz today a.earth_date).map jsTime).getD 0 ≤
        ((apodStringToDate tz today b.earth_date).map jsTime).getD 0)) :
    ∃ r, getRoverInfo tz today m = some r ∧ r.startDate = r.maxDate ∧
      (r.minDate.map jsTime).getD 0 ≤ (r.startDate.map jsTime).getD 0 ∧
      (r.startDate.map jsTime).getD 0 ≤ (r.maxDate.map jsTime).getD 0 ∧
      (r.maxDate.map jsTime).getD 0 ≤ (r.completedDate.map jsTime).getD 0 := by
  obtain ⟨rest, hrest⟩ := List.head?_eq_some_iff.mp hp
  have hlen : 1 ≤ m.photos.length := by rw [hrest]; simp
  have hpw := List.pairwise_iff_getElem.mp hmono
  have hidx : ∀ i j : ℕ, i ≤ j → (hj : j < m.photos.length) →
      ((apodStringToDate tz today (m.photos.getD i p).earth_date).map jsTime).getD 0 ≤
      ((apodStringToDate tz today (m.photos.getD j p).earth_date).map jsTime).getD 0 := by
    intro i j hij hj
    rcases Nat.lt_or_ge i j with hlt | hge
    · have := hpw i j (by omega) hj hlt
      rw [List.getD_eq_getElem?_getD, List.getElem?_eq_getElem (by omega : i < m.photos.length),
        List.getD_eq_getElem?_getD, List.getElem?_eq_getElem hj]
      exact this
    · have : i = j := by omega
      subst this
      exact le_refl _
  have hp0 : m.photos.getD 0 p = p := by rw [hrest]; rfl
  refine ⟨_, getRoverInfo_fields tz today m p hp, rfl, ?_, le_refl _, ?_⟩
  · have h01 := hidx 0 (m.photos.length - (jsCutOff m.name).natAbs) (by omega)
      (by have := jsCutOff_natAbs_pos m.name; omega)
    rw [hp0] at h01
    exact h01
  · exact hidx (m.photos.length - (jsCutOff m.name).natAbs) (m.photos.length - 1)
      (by have := jsCutOff_natAbs_pos m.name; omega) (by omega)

theorem c5_witness :
    (completeManifest.photos.head? = some ⟨0, "2020-01-01".toList⟩ ∧
      completeManifest.photos.Pairwise (fun a b => a.sol ≤ b.sol) ∧
      completeManifest.photos.Pairwise (fun a b =>
        ((apodStringToDate 0 [] a.earth_date).map jsTime).getD 0 ≤
          ((apodStringToDate 0 [] b.earth_date).map jsTime).getD 0)) ∧
    ∃ r, getRoverInfo 0 [] completeManifest = some r ∧ r.startDate = r.maxDate ∧
      (r.minDate.map jsTime).getD 0 ≤ (r.startDate.map jsTime).getD 0 ∧
      (r.startDate.map jsTime).getD 0 ≤ (r.maxDate.map jsTime).getD 0 ∧
      (r.maxDate.map jsTime).getD 0 ≤ (r.completedDate.map jsTime).getD 0 :=
  ⟨⟨by decide, by decide, by decide⟩,
    c5_date_order 0 [] completeManifest ⟨0, "2020-01-01".toList⟩
      (by decide) (by decide) (by decide)⟩

/-! ## C9: determinism and idempotence of the update -/

/-- C9: the availability computation is a pure function of the manifest: the
rovers-state replacement built from the same manifest a second time is
identical, because every field it writes is computed from the manifest (and
the unchanged `selectedRover`) alone. -/
theorem c9_update_idempotent (tz : ℤ) (today : List Char) (s : RoversState)
    (m : Manifest) :
    (roverInfoUpdate tz today s m).bind (fun s' => roverInfoUpdate tz today s' m) =
      roverInfoUpdate tz today s m := by
  unfold roverInfoUpdate
  cases hinfo : getRoverInfo tz today m with
  | none => rfl
  | some info =>
    cases hb : (jsSlice m.photos (jsCutOff m.name)).head? with
    | none => rfl
    | some bp => rfl

/-! ## C8: the date-string round trip -/

theorem digitChar_isDigit : ∀ k : ℕ, k < 10 → (Nat.digitChar k).isDigit = true := by decide

theorem digitVal_digitChar : ∀ k : ℕ, k < 10 → digitVal (Nat.digitChar k) = k := by decide

theorem daysInMonth_le (y m : ℕ) : daysInMonth y m ≤ 31 := by
  unfold daysInMonth
  split_ifs <;> omega

theorem natDigitsAux_succ (f n : ℕ) : natDigitsAux (f + 1) n =
    if n < 10 then [Nat.digitChar n]
    else natDigitsAux f (n / 10) ++ [Nat.digitChar (n % 10)] := rfl

theorem natDigitsAux_lt_ten (f n : ℕ) (hn : n < 10) (hf : 1 ≤ f) :
    natDigitsAux f n = [Nat.digitChar n] := by
  obtain ⟨g, rfl⟩ : ∃ g, f = g + 1 := ⟨f - 1, by omega⟩
  rw [natDigitsAux_succ, if_pos hn]

theorem natDigitsAux_ge_ten (f n : ℕ) (hn : 10 ≤ n) (hf : 1 ≤ f) :
    natDigitsAux f n = natDigitsAux (f - 1) (n / 10) ++ [Nat.digitChar (n % 10)] := by
  obtain ⟨g, rfl⟩ : ∃ g, f = g + 1 := ⟨f - 1, by omega⟩
  rw [natDigitsAux_succ, if_neg (by omega)]
  congr 1

theorem jsStringOfNat_lt_ten (n : ℕ) (h : n < 10) :
    jsStringOfNat n = [Nat.digitChar n] := by
  unfold jsStringOfNat
  exact natDigitsAux_lt_ten _ _ h (by omega)

theorem jsStringOfNat_two_digits (n : ℕ) (h1 : 10 ≤ n) (h2 : n ≤ 99) :
    jsStringOfNat n = [Nat.digitChar (n / 10), Nat.digitChar (n % 10)] := by
  unfold jsStringOfNat
  rw [natDigitsAux_ge_ten _ _ h1 (by omega)]
  rw [natDigitsAux_lt_ten _ _ (by omega) (by omega)]
  rfl

theorem jsStringOfNat_four_digits (n : ℕ) (h1 : 1000 ≤ n) (h2 : n ≤ 9999) :
    jsStringOfNat n = [Nat.digitChar (n / 1000), Nat.digitChar (n / 100 % 10),
      Nat.digitChar (n / 10 % 10), Nat.digitChar (n % 10)] := by
  unfold jsStringOfNat
  rw [natDigitsAux_ge_ten _ _ (by omega) (by omega)]
  rw [natDigitsAux_ge_ten _ _ (by omega : 10 ≤ n / 10) (by omega)]
  rw [natDigitsAux_ge_ten _ _ (by omega : 10 ≤ n / 10 / 10) (by omega)]
  rw [natDigitsAux_lt_ten _ _ (by omega : n / 10 / 10 / 10 < 10) (by omega)]
  rw [show n / 10 / 10 / 10 = n / 1000 from by omega,
    show n / 10 / 10 % 10 = n / 100 % 10 from by omega]
  rfl

theorem jsPadStart_two (n : ℕ) (h : n ≤ 99) :
    jsPadStart (jsStringOfNat n) 2 '0' =
      [Nat.digitChar (n / 10), Nat.digitChar (n % 10)] := by
  rcases Nat.lt_or_ge n 10 with h10 | h10
  · rw [jsStringOfNat_lt_ten n h10]
    unfold jsPadStart
    rw [show n / 10 = 0 from by omega, show n % 10 = n from by omega]
    rfl
  · rw [jsStringOfNat_two_digits n h10 h]
    unfold jsPadStart
    rfl

theorem jsStringOfInt_natCast (n : ℕ) : jsStringOfInt (n : ℤ) = jsStringOfNat n := by
  unfold jsStringOfInt
  rw [if_neg (by omega)]
  norm_num

theorem jsParseDate_eval_digits (y mo dy : ℕ) (e1 e2 : Char)
    (hy1 : 1000 ≤ y) (hy2 : y ≤ 9999) (hmo1 : 1 ≤ mo) (hmo2 : mo ≤ 12)
    (hdy1 : 1 ≤ dy) (hdy2 : dy ≤ daysInMonth y mo)
    (he1 : e1.isDigit = true) (he2 : e2.isDigit = true)
    (hh : digitVal e1 * 10 + digitVal e2 ≤ 23) :
    jsParseDate [Nat.digitChar (y / 1000), Nat.digitChar (y / 100 % 10),
      Nat.digitChar (y / 10 % 10), Nat.digitChar (y % 10), '-',
      Nat.digitChar (mo / 10), Nat.digitChar (mo % 10), '-',
      Nat.digitChar (dy / 10), Nat.digitChar (dy % 10), 'T', e1, e2,
      ':', '0', '0', ':', '0', '0'] =
      some ⟨(y : ℤ), (mo : ℤ), (dy : ℤ), ((digitVal e1 * 10 + digitVal e2 : ℕ) : ℤ)⟩ := by
  have hdy31 : dy ≤ 31 := le_trans hdy2 (daysInMonth_le y mo)
  simp only [jsParseDate]
  rw [if_pos ⟨trivial, trivial, trivial, trivial, trivial, trivial, trivial, trivial, trivial⟩]
  rw [digitChar_isDigit _ (by omega : y / 1000 < 10),
    digitChar_isDigit _ (by omega : y / 100 % 10 < 10),
    digitChar_isDigit _ (by omega : y / 10 % 10 < 10),
    digitChar_isDigit _ (by omega : y % 10 < 10),
    digitChar_isDigit _ (by omega : mo / 10 < 10),
    digitChar_isDigit _ (by omega : mo % 10 < 10),
    digitChar_isDigit _ (by omega : dy / 10 < 10),
    digitChar_isDigit _ (by omega : dy % 10 < 10),
    he1, he2]
  have hY : ((digitVal (Nat.digitChar (y / 1000)) * 10 +
      digitVal (Nat.digitChar (y / 100 % 10))) * 10 +
      digitVal (Nat.digitChar (y / 10 % 10))) * 10 + digitVal (Nat.digitChar (y % 10)) = y := by
    rw [digitVal_digitChar _ (by omega), digitVal_digitChar _ (by omega),
      digitVal_digitChar _ (by omega), digitVal_digitChar _ (by omega)]
    omega
  have hMO : digitVal (Nat.digitChar (mo / 10)) * 10 +
      digitVal (Nat.digitChar (mo % 10)) = mo := by
    rw [digitVal_digitChar _ (by omega), digitVal_digitChar _ (by omega)]
    omega
  have hDY : digitVal (Nat.digitChar (dy / 10)) * 10 +
      digitVal (Nat.digitChar (dy % 10)) = dy := by
    rw [digitVal_digitChar _ (by omega), digitVal_digitChar _ (by omega)]
    omega
  rw [hY, hMO, hDY]
  have hb : (true && true && true && true && true && true && true && true && true && true)
      = true := rfl
  rw [if_pos hb]
  rw [if_pos ⟨hmo1, hmo2, hdy1, hdy2, hh⟩]

theorem dateToStringConverter_eval (y mo dy hh : ℕ) :
    dateToStringConverter ⟨(y : ℤ), (mo : ℤ), (dy : ℤ), (hh : ℤ)⟩ = mkDateString y mo dy := by
  show jsStringOfInt (y : ℤ) ++ ['-'] ++ jsPadStart (jsStringOfInt ((mo : ℤ) - 1 + 1)) 2 '0' ++
    ['-'] ++ jsPadStart (jsStringOfInt (dy : ℤ)) 2 '0' = mkDateString y mo dy
  rw [show ((mo : ℤ) - 1 + 1) = (mo : ℤ) from by ring]
  rw [jsStringOfInt_natCast, jsStringOfInt_natCast, jsStringOfInt_natCast]
  rfl

/-- C8 (amended): for every well-formed `"YYYY-MM-DD"` string (four-digit year
1000..9999, valid month and day) and every nonnegative whole-hour timezone
offset (local time at or behind UTC), parsing with the timezone normalization
and rendering the local calendar date recovers the original string. -/
theorem c8_roundtrip_nonneg_offset (tz : ℤ) (today : List Char) (y mo dy : ℕ)
    (hy1 : 1000 ≤ y) (hy2 : y ≤ 9999) (hmo1 : 1 ≤ mo) (hmo2 : mo ≤ 12)
    (hdy1 : 1 ≤ dy) (hdy2 : dy ≤ daysInMonth y mo)
    (htz1 : 0 ≤ tz) (htz2 : tz ≤ 23) :
    (apodStringToDate tz today (mkDateString y mo dy)).map dateToStringConverter =
      some (mkDateString y mo dy) := by
  have hdy31 : dy ≤ 31 := le_trans hdy2 (daysInMonth_le y mo)
  have hstr : mkDateString y mo dy =
      [Nat.digitChar (y / 1000), Nat.digitChar (y / 100 % 10), Nat.digitChar (y / 10 % 10),
        Nat.digitChar (y % 10), '-', Nat.digitChar (mo / 10), Nat.digitChar (mo % 10), '-',
        Nat.digitChar (dy / 10), Nat.digitChar (dy % 10)] := by
    unfold mkDateString
    rw [jsStringOfNat_four_digits y hy1 hy2, jsPadStart_two mo (by omega),
      jsPadStart_two dy (by omega)]
    rfl
  have hne : mkDateString y mo dy ≠ [] := by rw [hstr]; simp
  unfold apodStringToDate
  rw [if_pos hne]
  unfold getDateWithTimeString
  rcases eq_or_lt_of_le htz1 with heq | hpos
  · rw [if_neg (by omega), if_neg (by omega)]
    rw [hstr]
    rw [show ([Nat.digitChar (y / 1000), Nat.digitChar (y / 100 % 10),
        Nat.digitChar (y / 10 % 10), Nat.digitChar (y % 10), '-', Nat.digitChar (mo / 10),
        Nat.digitChar (mo % 10), '-', Nat.digitChar (dy / 10), Nat.digitChar (dy % 10)] ++
        ['T', '0', '0', ':', '0', '0', ':', '0', '0'] : List Char) =
      [Nat.digitChar (y / 1000), Nat.digitChar (y / 100 % 10), Nat.digitChar (y / 10 % 10),
        Nat.digitChar (y % 10), '-', Nat.digitChar (mo / 10), Nat.digitChar (mo % 10), '-',
        Nat.digitChar (dy / 10), Nat.digitChar (dy % 10), 'T', '0', '0',
        ':', '0', '0', ':', '0', '0'] from rfl]
    rw [jsParseDate_eval_digits y mo dy '0' '0' hy1 hy2 hmo1 hmo2 hdy1 hdy2
      (by decide) (by decide) (by decide)]
    rw [Option.map_some']
    rw [dateToStringConverter_eval]
    exact congrArg some hstr
  · rw [if_pos hpos]
    rw [show jsStringOfInt tz = jsStringOfNat tz.toNat from by
      unfold jsStringOfInt; rw [if_neg (by omega)]]
    rw [jsPadStart_two tz.toNat (by omega)]
    rw [hstr]
    rw [show ([Nat.digitChar (y / 1000), Nat.digitChar (y / 100 % 10),
        Nat.digitChar (y / 10 % 10), Nat.digitChar (y % 10), '-', Nat.digitChar (mo / 10),
        Nat.digitChar (mo % 10), '-', Nat.digitChar (dy / 10), Nat.digitChar (dy % 10)] ++
        ['T'] ++ [Nat.digitChar (tz.toNat / 10), Nat.digitChar (tz.toNat % 10)] ++
        [':', '0', '0', ':', '0', '0'] : List Char) =
      [Nat.digitChar (y / 1000), Nat.digitChar (y / 100 % 10), Nat.digitChar (y / 10 % 10),
        Nat.digitChar (y % 10), '-', Nat.digitChar (mo / 10), Nat.digitChar (mo % 10), '-',
        Nat.digitChar (dy / 10), Nat.digitChar (dy % 10), 'T',
        Nat.digitChar (tz.toNat / 10), Nat.digitChar (tz.toNat % 10),
        ':', '0', '0', ':', '0', '0'] from rfl]
    rw [jsParseDate_eval_digits y mo dy (Nat.digitChar (tz.toNat / 10))
      (Nat.digitChar (tz.toNat % 10)) hy1 hy2 hmo1 hmo2 hdy1 hdy2
      (digitChar_isDigit _ (by omega)) (digitChar_isDigit _ (by omega))
      (by rw [digitVal_digitChar _ (by omega), digitVal_digitChar _ (by omega)]; omega)]
    rw [Option.map_some']
    rw [dateToStringConverter_eval]
    exact congrArg some hstr

theorem c8_witness :
    ((1000 : ℕ) ≤ 2020 ∧ (2020 : ℕ) ≤ 9999 ∧ (1 : ℕ) ≤ 3 ∧ (3 : ℕ) ≤ 12 ∧
      (1 : ℕ) ≤ 5 ∧ (5 : ℕ) ≤ daysInMonth 2020 3 ∧ (0 : ℤ) ≤ 2 ∧ (2 : ℤ) ≤ 23) ∧
    (apodStringToDate 2 [] (mkDateString 2020 3 5)).map dateToStringConverter =
      some (mkDateString 2020 3 5) :=
  ⟨⟨by decide, by decide, by decide, by decide, by decide, by decide, by decide, by decide⟩,
    c8_roundtrip_nonneg_offset 2 [] 2020 3 5 (by decide) (by decide) (by decide) (by decide)
      (by decide) (by decide) (by decide) (by decide)⟩

/-- C8 (counterexample): at timezone offset `-2` (local time two hours ahead
of UTC), the well-formed date string `"2020-03-05"` round-trips to
`"2020-03-04"` — the previous day — so the claim fails for negative offsets:
the surgery parses `"2020-03-04T22:00:00"` as local time, which lies on the
previous local calendar day. -/
theorem c8_counterexample_negative_offset :
    mkDateString 2020 3 5 = "2020-03-05".toList ∧
    (apodStringToDate (-2) [] "2020-03-05".toList).map dateToStringConverter =
      some "2020-03-04".toList ∧
    some "2020-03-04".toList ≠ some "2020-03-05".toList := by
  refine ⟨by decide, by decide, by decide⟩
